import Mathlib

/-!
Verification of the sky radiance coefficient solver of the Hosek-Wilkie
skybox prototype.  The numeric core of `src/main.rs` (`recalc_sun`,
`evaluate`, `evaluate_spline`, `hosek_wilkie`, `clamp`, `min`, and the
element-wise `Vector3` helpers `powv` and `exp`) is embedded shallowly
over the real numbers.  The coefficient datasets `DATASETS_RGB` and
`DATASETS_RGB_RAD` are static, externally supplied tables; they are
abstracted as functions `ℕ → ℝ` (one per color channel), exactly as the
code treats them (read-only indexed lookups).
-/

namespace HW

noncomputable section

/-- The 3-component float vector (`cgmath::Vector3<f32>`), modelled over ℝ. -/
structure Vec3 where
  x : ℝ
  y : ℝ
  z : ℝ

/-- Source `cgmath` component-wise addition of two vectors. -/
instance : Add Vec3 := ⟨fun a b => ⟨a.x + b.x, a.y + b.y, a.z + b.z⟩⟩

/-- Source `cgmath` component-wise subtraction of two vectors. -/
instance : Sub Vec3 := ⟨fun a b => ⟨a.x - b.x, a.y - b.y, a.z - b.z⟩⟩

/-- Source `cgmath` vector-times-scalar multiplication. -/
instance : HMul Vec3 ℝ Vec3 := ⟨fun a s => ⟨a.x * s, a.y * s, a.z * s⟩⟩

/-- Source `cgmath` scalar-times-vector multiplication. -/
instance : HMul ℝ Vec3 Vec3 := ⟨fun s a => ⟨s * a.x, s * a.y, s * a.z⟩⟩

/-- Source `cgmath` vector-divided-by-scalar. -/
instance : HDiv Vec3 ℝ Vec3 := ⟨fun a s => ⟨a.x / s, a.y / s, a.z / s⟩⟩

/-- Source `cgmath` scalar-divided-by-vector (component-wise). -/
instance : HDiv ℝ Vec3 Vec3 := ⟨fun s a => ⟨s / a.x, s / a.y, s / a.z⟩⟩

/-- Source `ElementWise::mul_element_wise`. -/
def Vec3.mulE (a b : Vec3) : Vec3 := ⟨a.x * b.x, a.y * b.y, a.z * b.z⟩

/-- Source `ElementWise::add_element_wise` with a scalar. -/
def Vec3.addS (a : Vec3) (s : ℝ) : Vec3 := ⟨a.x + s, a.y + s, a.z + s⟩

/-- Source `InnerSpace::dot`. -/
def Vec3.dot (a b : Vec3) : ℝ := a.x * b.x + a.y * b.y + a.z * b.z

/-- Source `fn powv(a, b)`: component-wise real power (`f32::powf`). -/
def powv (a b : Vec3) : Vec3 := ⟨a.x ^ b.x, a.y ^ b.y, a.z ^ b.z⟩

/-- Source `fn exp(vec)`: component-wise exponential (`f32::exp`). -/
def expv (v : Vec3) : Vec3 := ⟨Real.exp v.x, Real.exp v.y, Real.exp v.z⟩

/-- Source `fn clamp<T: PartialOrd>(value, min, max)` from `main.rs`. -/
def clamp {α : Type} [LinearOrder α] (value lo hi : α) : α :=
  if value < lo then lo else if value > hi then hi else value

/-- Source `fn min<T: PartialOrd>(value, min)` from `main.rs`. -/
def minP {α : Type} [LinearOrder α] (value m : α) : α :=
  if value < m then value else m

/-- Source `fn evaluate_spline(dataset, start, stride, value)`: degree-5 Bernstein
blend of six control points read from the dataset at `start + k*stride`. -/
def evaluate_spline (dataset : ℕ → ℝ) (start stride : ℕ) (value : ℝ) : ℝ :=
  1  * (1 - value) ^ 5 *               dataset (start + 0 * stride) +
  5  * (1 - value) ^ 4 * value ^ 1 *   dataset (start + 1 * stride) +
  10 * (1 - value) ^ 3 * value ^ 2 *   dataset (start + 2 * stride) +
  10 * (1 - value) ^ 2 * value ^ 3 *   dataset (start + 3 * stride) +
  5  * (1 - value) ^ 1 * value ^ 4 *   dataset (start + 4 * stride) +
  1  *                   value ^ 5 *   dataset (start + 5 * stride)

/-- Source `elevationK` from `evaluate`: `(1 - sun_theta / (π/2)).max(0).powf(1/3)`. -/
def elevationK (sun_theta : ℝ) : ℝ :=
  (max (1 - sun_theta / (Real.pi / 2)) 0) ^ ((1 : ℝ) / 3)

/-- Source `turbidity0` from `evaluate`: `clamp(turbidity as usize, 1, 10)`.
The `f32 → usize` cast truncates toward zero and saturates at 0 for
negative inputs, which is exactly `Nat.floor` on ℝ. -/
def turbidity0 (turbidity : ℝ) : ℕ := clamp (Nat.floor turbidity) 1 10

/-- Source `turbidity1` from `evaluate`: `min(turbidity0 + 1, 10)`. -/
def turbidity1 (turbidity : ℝ) : ℕ := minP (turbidity0 turbidity + 1) 10

/-- Source `turbidityK` from `evaluate`: `clamp(turbidity - turbidity0 as f32, 0, 1)`. -/
def turbidityK (turbidity : ℝ) : ℝ :=
  clamp (turbidity - (turbidity0 turbidity : ℝ)) 0 1

/-- Source `fn evaluate(dataset, stride, turbidity, albedo, sun_theta)`: bilinear
blend, over the two albedo tables and two adjacent turbidity bands, of
quintic spline evaluations at the warped elevation parameter. -/
def evaluate (dataset : ℕ → ℝ) (stride : ℕ) (turbidity albedo sun_theta : ℝ) : ℝ :=
  let elevK := elevationK sun_theta
  let t0 := turbidity0 turbidity
  let t1 := turbidity1 turbidity
  let tk := turbidityK turbidity
  let datasetA0 := 0
  let datasetA1 := stride * 6 * 10
  let a0t0 := evaluate_spline dataset (datasetA0 + stride * 6 * (t0 - 1)) stride elevK
  let a1t0 := evaluate_spline dataset (datasetA1 + stride * 6 * (t0 - 1)) stride elevK
  let a0t1 := evaluate_spline dataset (datasetA0 + stride * 6 * (t1 - 1)) stride elevK
  let a1t1 := evaluate_spline dataset (datasetA1 + stride * 6 * (t1 - 1)) stride elevK
  a0t0 * (1 - albedo) * (1 - tk) + a1t0 * albedo * (1 - tk) +
    a0t1 * (1 - albedo) * tk + a1t1 * albedo * tk

/-- Source `fn hosek_wilkie(cos_theta, gamma, cos_gamma, params)`: the closed-form
Hosek-Wilkie radiance expression, element-wise over the three channels.
`params 0 .. params 8` are the coefficient vectors A..I. -/
def hosek_wilkie (cos_theta gamma cos_gamma : ℝ) (params : ℕ → Vec3) : Vec3 :=
  let A := params 0
  let B := params 1
  let C := params 2
  let D := params 3
  let E := params 4
  let F := params 5
  let G := params 6
  let H := params 7
  let I := params 8
  let chi := (1 + cos_gamma * cos_gamma) /
    powv ((H.mulE H).addS 1 - 2 * cos_gamma * H) ⟨1.5, 1.5, 1.5⟩
  (A.mulE (expv (B / (cos_theta + 0.01)))).addS 1 |>.mulE
    (C + D.mulE (expv (E * gamma)) + F * (cos_gamma * cos_gamma) +
      G.mulE chi + I * Real.sqrt (max cos_theta 0))

/-- Slicing a dataset: `&DATASETS_RGB[i][s ..]` re-indexes the channel
table from offset `s`. -/
def slice (d : ℕ → ℝ) (s : ℕ) : ℕ → ℝ := fun j => d (j + s)

/-- Build a `Vec3` from a per-channel value (the loop `for i in 0..3`
fills component `i` of each parameter vector). -/
def vec3Of (f : Fin 3 → ℝ) : Vec3 := ⟨f 0, f 1, f 2⟩

/-- The ten parameter vectors produced by the solver loop of `recalc_sun`
(lines `params[0][i] = ...` through `params[9][i] = ...`): slots 0-6 read
the RGB dataset at offsets 0-6, slot 7 reads offset 8, slot 8 reads
offset 7, and slot 9 reads the radiance dataset with stride 1. -/
def solvedParams (rgb : Fin 3 → ℕ → ℝ) (rad : Fin 3 → ℕ → ℝ)
    (turb : ℝ) (alb : Fin 3 → ℝ) (sun_theta : ℝ) : ℕ → Vec3 := fun k =>
  if k = 9 then vec3Of (fun i => evaluate (rad i) 1 turb (alb i) sun_theta)
  else if k = 7 then vec3Of (fun i => evaluate (slice (rgb i) 8) 9 turb (alb i) sun_theta)
  else if k = 8 then vec3Of (fun i => evaluate (slice (rgb i) 7) 9 turb (alb i) sun_theta)
  else vec3Of (fun i => evaluate (slice (rgb i) k) 9 turb (alb i) sun_theta)

/-- The sRGB luma weights `Vector3::new(0.2126, 0.7152, 0.0722)` used to
reduce the zenith radiance to a luminance scalar. -/
def lumaWeights : Vec3 := ⟨0.2126, 0.7152, 0.0722⟩

/-- Truncation toward zero, the rounding used by Rust's float remainder. -/
def rustTrunc (x : ℝ) : ℝ := if 0 ≤ x then (⌊x⌋ : ℤ) else (⌈x⌉ : ℤ)

/-- Rust's `%` on floats: `a - b * trunc(a / b)` (sign follows `a`). -/
def fmodR (a b : ℝ) : ℝ := a - b * rustTrunc (a / b)

/-- Source `sun_amount` before folding: `(sun_dir.y / FRAC_PI_2) % 4.0`. -/
def sunAmountRaw (y : ℝ) : ℝ := fmodR (y / (Real.pi / 2)) 4

/-- First folding statement in `recalc_sun`:
`if sun_amount > 2.0 { sun_amount = 0.0 }`. -/
def foldNight (s : ℝ) : ℝ := if s > 2 then 0 else s

/-- Second folding statement in `recalc_sun`:
`if sun_amount > 1.0 { sun_amount = 2.0 - sun_amount } else if
sun_amount < -1.0 { sun_amount = -2.0 - sun_amount }`. -/
def foldMirror (s : ℝ) : ℝ :=
  if s > 1 then 2 - s else if s < -1 then -2 - s else s

/-- The complete folding applied to `sun_amount` in `recalc_sun`: the two
sequential `if` statements composed. -/
def dayNightFold (s : ℝ) : ℝ := foldMirror (foldNight s)

/-- Source `normalized_sun_y = 0.6 + 0.45 * sun_amount` as a function of the
sun direction's y component. -/
def normalizedSunY (y : ℝ) : ℝ := 0.6 + 0.45 * dayNightFold (sunAmountRaw y)

/-- The day/night multiplier as a function of the pre-fold `sun_amount`. -/
def dayNightMultiplier (s : ℝ) : ℝ := 0.6 + 0.45 * dayNightFold s

/-- Rotation of a vector about the axis `(-1, 0, 0)` by an angle, i.e.
`Quaternion::from_axis_angle(Vector3::new(-1,0,0), Rad a).rotate_vector`
of the external `cgmath` crate, written as its rotation matrix. -/
def rotNegX (a : ℝ) (v : Vec3) : Vec3 :=
  ⟨v.x, Real.cos a * v.y + Real.sin a * v.z, -(Real.sin a) * v.y + Real.cos a * v.z⟩

/-- Rotation of a vector about the axis `(0, 1, 0)` by an angle, i.e.
`Quaternion::from_axis_angle(Vector3::new(0,1,0), Rad a).rotate_vector`
of the external `cgmath` crate, written as its rotation matrix. -/
def rotY (a : ℝ) (v : Vec3) : Vec3 :=
  ⟨Real.cos a * v.x + Real.sin a * v.z, v.y, -(Real.sin a) * v.x + Real.cos a * v.z⟩

/-- The sun direction computed at the top of `recalc_sun`: the vector
`(0,0,1)` rotated about `(-1,0,0)` by `sun_pos.x`, then about `(0,1,0)`
by `sun_pos.y`. -/
def sun_dir (sun_pos : ℝ × ℝ) : Vec3 :=
  rotY sun_pos.2 (rotNegX sun_pos.1 ⟨0, 0, 1⟩)

/-- Source `sun_theta = clamp(sun_dir.y, 0.0, 1.0).acos()`. -/
def sunThetaOf (y : ℝ) : ℝ := Real.arccos (clamp y 0 1)

/-- Source `fn recalc_sun(sun_pos)`: the whole solver pipeline.  Returns the sun
direction and the ten parameter vectors; the two in-place updates of
`params[9]` (luminance normalization, then day/night scaling) become a
functional update of slot 9. -/
def recalc_sun (rgb : Fin 3 → ℕ → ℝ) (rad : Fin 3 → ℕ → ℝ)
    (turb : ℝ) (alb : Fin 3 → ℝ) (sun_pos : ℝ × ℝ) : Vec3 × (ℕ → Vec3) :=
  let sd := sun_dir sun_pos
  let sun_theta := sunThetaOf sd.y
  let params := solvedParams rgb rad turb alb sun_theta
  let S := (hosek_wilkie (Real.cos sun_theta) 0 1 params).mulE (params 9)
  let z1 := params 9 / S.dot lumaWeights
  let sun_amount := dayNightFold (sunAmountRaw sd.y)
  let normalized_sun_y := 0.6 + 0.45 * sun_amount
  let z2 := z1 * normalized_sun_y
  (sd, fun k => if k = 9 then z2 else params k)

/-- Source `const TURBIDITY` from `main.rs`. -/
def TURBIDITY : ℝ := 4.0

/-- Source `const ALBEDO` from `main.rs`. -/
def ALBEDO : Fin 3 → ℝ := fun _ => 0.1

/-- The six dataset indices read by one `evaluate_spline` call:
`start + k * stride` for `k = 0..5`. -/
def splineIndices (start stride : ℕ) : List ℕ :=
  [start + 0 * stride, start + 1 * stride, start + 2 * stride,
   start + 3 * stride, start + 4 * stride, start + 5 * stride]

/-- All dataset indices read by one `evaluate` call: the four
`evaluate_spline` invocations at `(albedo0, t0)`, `(albedo1, t0)`,
`(albedo0, t1)`, `(albedo1, t1)`. -/
def evaluateIndices (stride : ℕ) (turbidity : ℝ) : List ℕ :=
  splineIndices (0 + stride * 6 * (turbidity0 turbidity - 1)) stride ++
  splineIndices (stride * 6 * 10 + stride * 6 * (turbidity0 turbidity - 1)) stride ++
  splineIndices (0 + stride * 6 * (turbidity1 turbidity - 1)) stride ++
  splineIndices (stride * 6 * 10 + stride * 6 * (turbidity1 turbidity - 1)) stride

end

@[simp] theorem Vec3.add_x (a b : Vec3) : (a + b).x = a.x + b.x := rfl
@[simp] theorem Vec3.add_y (a b : Vec3) : (a + b).y = a.y + b.y := rfl
@[simp] theorem Vec3.add_z (a b : Vec3) : (a + b).z = a.z + b.z := rfl
@[simp] theorem Vec3.sub_x (a b : Vec3) : (a - b).x = a.x - b.x := rfl
@[simp] theorem Vec3.sub_y (a b : Vec3) : (a - b).y = a.y - b.y := rfl
@[simp] theorem Vec3.sub_z (a b : Vec3) : (a - b).z = a.z - b.z := rfl
@[simp] theorem Vec3.mul_scalar_x (a : Vec3) (s : ℝ) : (a * s).x = a.x * s := rfl
@[simp] theorem Vec3.mul_scalar_y (a : Vec3) (s : ℝ) : (a * s).y = a.y * s := rfl
@[simp] theorem Vec3.mul_scalar_z (a : Vec3) (s : ℝ) : (a * s).z = a.z * s := rfl
@[simp] theorem Vec3.scalar_mul_x (s : ℝ) (a : Vec3) : (s * a).x = s * a.x := rfl
@[simp] theorem Vec3.scalar_mul_y (s : ℝ) (a : Vec3) : (s * a).y = s * a.y := rfl
@[simp] theorem Vec3.scalar_mul_z (s : ℝ) (a : Vec3) : (s * a).z = s * a.z := rfl
@[simp] theorem Vec3.div_scalar_x (a : Vec3) (s : ℝ) : (a / s).x = a.x / s := rfl
@[simp] theorem Vec3.div_scalar_y (a : Vec3) (s : ℝ) : (a / s).y = a.y / s := rfl
@[simp] theorem Vec3.div_scalar_z (a : Vec3) (s : ℝ) : (a / s).z = a.z / s := rfl
@[simp] theorem Vec3.scalar_div_x (s : ℝ) (a : Vec3) : (s / a).x = s / a.x := rfl
@[simp] theorem Vec3.scalar_div_y (s : ℝ) (a : Vec3) : (s / a).y = s / a.y := rfl
@[simp] theorem Vec3.scalar_div_z (s : ℝ) (a : Vec3) : (s / a).z = s / a.z := rfl
@[simp] theorem Vec3.mulE_x (a b : Vec3) : (a.mulE b).x = a.x * b.x := rfl
@[simp] theorem Vec3.mulE_y (a b : Vec3) : (a.mulE b).y = a.y * b.y := rfl
@[simp] theorem Vec3.mulE_z (a b : Vec3) : (a.mulE b).z = a.z * b.z := rfl
@[simp] theorem Vec3.addS_x (a : Vec3) (s : ℝ) : (a.addS s).x = a.x + s := rfl
@[simp] theorem Vec3.addS_y (a : Vec3) (s : ℝ) : (a.addS s).y = a.y + s := rfl
@[simp] theorem Vec3.addS_z (a : Vec3) (s : ℝ) : (a.addS s).z = a.z + s := rfl
@[simp] theorem powv_x (a b : Vec3) : (powv a b).x = a.x ^ b.x := rfl
@[simp] theorem powv_y (a b : Vec3) : (powv a b).y = a.y ^ b.y := rfl
@[simp] theorem powv_z (a b : Vec3) : (powv a b).z = a.z ^ b.z := rfl
@[simp] theorem expv_x (v : Vec3) : (expv v).x = Real.exp v.x := rfl
@[simp] theorem expv_y (v : Vec3) : (expv v).y = Real.exp v.y := rfl
@[simp] theorem expv_z (v : Vec3) : (expv v).z = Real.exp v.z := rfl
@[simp] theorem vec3Of_x (f : Fin 3 → ℝ) : (vec3Of f).x = f 0 := rfl
@[simp] theorem vec3Of_y (f : Fin 3 → ℝ) : (vec3Of f).y = f 1 := rfl
@[simp] theorem vec3Of_z (f : Fin 3 → ℝ) : (vec3Of f).z = f 2 := rfl

theorem Vec3.dot_def (a b : Vec3) :
    a.dot b = a.x * b.x + a.y * b.y + a.z * b.z := rfl

/-- C6: `evaluate_spline` at parameter 0 returns exactly the first control
point (the dataset value at `start + 0*stride`), and at parameter 1 returns
exactly the last control point (the value at `start + 5*stride`). -/
theorem spline_boundary (d : ℕ → ℝ) (start stride : ℕ) :
    evaluate_spline d start stride 0 = d (start + 0 * stride) ∧
    evaluate_spline d start stride 1 = d (start + 5 * stride) := by
  constructor <;> · unfold evaluate_spline; norm_num

theorem turbidity0_cast (b : ℕ) (hb1 : 1 ≤ b) (hb2 : b ≤ 10) :
    turbidity0 (b : ℝ) = b := by
  unfold turbidity0 clamp
  rw [Nat.floor_natCast]
  rw [if_neg (by omega), if_neg (by omega)]

/-- C5: at a turbidity exactly equal to an integer band `b ∈ {1,...,10}`,
the turbidity blend weight is 0 and `evaluate` reduces to the pure
albedo-blend of the two spline evaluations for band `b`, with zero
contribution from band `b+1`. -/
theorem evaluate_integer_band (d : ℕ → ℝ) (stride : ℕ) (b : ℕ)
    (albedo sun_theta : ℝ) (hb1 : 1 ≤ b) (hb2 : b ≤ 10) :
    turbidityK (b : ℝ) = 0 ∧
    evaluate d stride (b : ℝ) albedo sun_theta =
      (1 - albedo) *
        evaluate_spline d (stride * 6 * (b - 1)) stride (elevationK sun_theta) +
      albedo *
        evaluate_spline d (stride * 6 * 10 + stride * 6 * (b - 1)) stride
          (elevationK sun_theta) := by
  have ht0 : turbidity0 (b : ℝ) = b := turbidity0_cast b hb1 hb2
  have htk : turbidityK (b : ℝ) = 0 := by
    unfold turbidityK
    rw [ht0, sub_self]
    unfold clamp
    norm_num
  refine ⟨htk, ?_⟩
  unfold evaluate
  rw [ht0, htk]
  simp only [zero_add]
  ring

/-- Witness for C5 at band `b = 3`, stride 9. -/
theorem evaluate_integer_band_witness :
    1 ≤ 3 ∧ 3 ≤ 10 ∧
    (turbidityK ((3 : ℕ) : ℝ) = 0 ∧
      evaluate (fun n => (n : ℝ)) 9 ((3 : ℕ) : ℝ) (1/2) 1 =
        (1 - 1/2) *
          evaluate_spline (fun n => (n : ℝ)) (9 * 6 * (3 - 1)) 9 (elevationK 1) +
        1/2 *
          evaluate_spline (fun n => (n : ℝ)) (9 * 6 * 10 + 9 * 6 * (3 - 1)) 9
            (elevationK 1)) :=
  ⟨by norm_num, by norm_num,
    evaluate_integer_band (fun n => (n : ℝ)) 9 3 (1/2) 1 (by norm_num) (by norm_num)⟩

/-- C3: `hosek_wilkie` returns, per channel,
`(1 + A*exp(B/(cosTheta+0.01))) * (C + D*exp(E*gamma) + F*cosGamma^2 +
G*chi + I*sqrt(max 0 cosTheta))` with
`chi = (1 + cosGamma^2) / (1 + H^2 - 2*cosGamma*H)^1.5` computed
element-wise per channel. -/
theorem radiance_formula (ct g cg : ℝ) (p : ℕ → Vec3) :
    (hosek_wilkie ct g cg p).x =
      (1 + (p 0).x * Real.exp ((p 1).x / (ct + 0.01))) *
        ((p 2).x + (p 3).x * Real.exp ((p 4).x * g) + (p 5).x * cg ^ 2 +
          (p 6).x * ((1 + cg ^ 2) / (1 + (p 7).x ^ 2 - 2 * cg * (p 7).x) ^ (1.5 : ℝ)) +
          (p 8).x * Real.sqrt (max 0 ct)) ∧
    (hosek_wilkie ct g cg p).y =
      (1 + (p 0).y * Real.exp ((p 1).y / (ct + 0.01))) *
        ((p 2).y + (p 3).y * Real.exp ((p 4).y * g) + (p 5).y * cg ^ 2 +
          (p 6).y * ((1 + cg ^ 2) / (1 + (p 7).y ^ 2 - 2 * cg * (p 7).y) ^ (1.5 : ℝ)) +
          (p 8).y * Real.sqrt (max 0 ct)) ∧
    (hosek_wilkie ct g cg p).z =
      (1 + (p 0).z * Real.exp ((p 1).z / (ct + 0.01))) *
        ((p 2).z + (p 3).z * Real.exp ((p 4).z * g) + (p 5).z * cg ^ 2 +
          (p 6).z * ((1 + cg ^ 2) / (1 + (p 7).z ^ 2 - 2 * cg * (p 7).z) ^ (1.5 : ℝ)) +
          (p 8).z * Real.sqrt (max 0 ct)) := by
  have hb : ∀ h : ℝ, h * h + 1 - 2 * cg * h = 1 + h ^ 2 - 2 * cg * h := by
    intro h; ring
  have hm : max ct 0 = max 0 ct := max_comm ct 0
  refine ⟨?_, ?_, ?_⟩ <;>
    · simp only [hosek_wilkie, Vec3.mulE_x, Vec3.mulE_y, Vec3.mulE_z,
        Vec3.addS_x, Vec3.addS_y, Vec3.addS_z, Vec3.add_x, Vec3.add_y,
        Vec3.add_z, Vec3.sub_x, Vec3.sub_y, Vec3.sub_z, Vec3.mul_scalar_x,
        Vec3.mul_scalar_y, Vec3.mul_scalar_z, Vec3.scalar_mul_x,
        Vec3.scalar_mul_y, Vec3.scalar_mul_z, Vec3.div_scalar_x,
        Vec3.div_scalar_y, Vec3.div_scalar_z, Vec3.scalar_div_x,
        Vec3.scalar_div_y, Vec3.scalar_div_z, powv_x, powv_y, powv_z,
        expv_x, expv_y, expv_z]
      rw [hb, hm]
      ring

/-- C2: the normalized Z vector is the raw Z vector divided by the dot
product of (the radiance function at `cosTheta = cos(sunTheta)`,
`gamma = 0`, `cosGamma = 1` with the solved coefficients, multiplied
element-wise by raw Z) with the luma weights (0.2126, 0.7152, 0.0722);
the day/night scale is applied after this division. -/
theorem z_normalization (rgb rad : Fin 3 → ℕ → ℝ) (turb : ℝ)
    (alb : Fin 3 → ℝ) (sun_pos : ℝ × ℝ) :
    (recalc_sun rgb rad turb alb sun_pos).2 9 =
      (solvedParams rgb rad turb alb (sunThetaOf (sun_dir sun_pos).y) 9 /
        ((hosek_wilkie (Real.cos (sunThetaOf (sun_dir sun_pos).y)) 0 1
            (solvedParams rgb rad turb alb (sunThetaOf (sun_dir sun_pos).y))).mulE
          (solvedParams rgb rad turb alb (sunThetaOf (sun_dir sun_pos).y) 9)).dot
          lumaWeights) *
        normalizedSunY (sun_dir sun_pos).y := by
  simp [recalc_sun, normalizedSunY]

/-- C1: the solver fills output slots 0-6 from dataset coefficient offsets
0-6 in order, slot 7 from dataset offset 8, and slot 8 from dataset
offset 7 (the dataset stores the nine coefficients as A,B,C,D,E,F,G,I,H
and this slot-7/8 swap is preserved exactly). -/
theorem solver_slot_swap (rgb rad : Fin 3 → ℕ → ℝ) (turb : ℝ)
    (alb : Fin 3 → ℝ) (sun_theta : ℝ) :
    ∀ k : Fin 9, solvedParams rgb rad turb alb sun_theta k.val =
      vec3Of (fun i =>
        evaluate (slice (rgb i) (if k.val = 7 then 8 else if k.val = 8 then 7 else k.val))
          9 turb (alb i) sun_theta) := by
  intro k
  fin_cases k <;> simp [solvedParams]

/-- C9: the normalization and day/night scaling performed after the solver
loop modify only slot 9: output slots 0-8 of `recalc_sun` are exactly the
coefficient-blender values, unchanged. -/
theorem normalization_frame (rgb rad : Fin 3 → ℕ → ℝ) (turb : ℝ)
    (alb : Fin 3 → ℝ) (sun_pos : ℝ × ℝ) :
    ∀ k : Fin 9, (recalc_sun rgb rad turb alb sun_pos).2 k.val =
      solvedParams rgb rad turb alb (sunThetaOf (sun_dir sun_pos).y) k.val := by
  intro k
  have hk : (k : ℕ) ≠ 9 := by omega
  simp [recalc_sun, hk]

theorem foldNight_of_le {s : ℝ} (h : s ≤ 2) : foldNight s = s := by
  unfold foldNight
  rw [if_neg (by linarith)]

theorem fold_eq_mid {s : ℝ} (h1 : -1 ≤ s) (h2 : s ≤ 1) : dayNightFold s = s := by
  unfold dayNightFold foldMirror
  rw [foldNight_of_le (by linarith), if_neg (by linarith), if_neg (by linarith)]

theorem fold_eq_high {s : ℝ} (h1 : 1 < s) (h2 : s ≤ 2) : dayNightFold s = 2 - s := by
  unfold dayNightFold foldMirror
  rw [foldNight_of_le h2, if_pos h1]

theorem fold_eq_low {s : ℝ} (h : s ≤ -1) : dayNightFold s = -2 - s := by
  unfold dayNightFold foldMirror
  rw [foldNight_of_le (by linarith)]
  rcases lt_or_eq_of_le h with hlt | heq
  · rw [if_neg (by linarith), if_pos hlt]
  · rw [heq, if_neg (by norm_num), if_neg (by norm_num)]
    norm_num

theorem fold_eq_night {s : ℝ} (h : 2 < s) : dayNightFold s = 0 := by
  unfold dayNightFold foldNight foldMirror
  rw [if_pos h, if_neg (by norm_num), if_neg (by norm_num)]

/-- C4 counterexample: at sun control angle `(π/2, 0)` the sun points
straight up, so its elevation angle above the horizon is
`arcsin(sun_dir.y) = π/2`; the day/night factor the code computes from
`sun_dir.y` differs from the factor the claim's
`(sunElevation / (π/2)) mod 4` recipe would give. -/
theorem day_night_elevation_counterexample :
    normalizedSunY (sun_dir (Real.pi / 2, 0)).y ≠
      0.6 + 0.45 * dayNightFold
        (fmodR (Real.arcsin ((sun_dir (Real.pi / 2, 0)).y) / (Real.pi / 2)) 4) := by
  have hpi : (2 : ℝ) < Real.pi := by linarith [Real.pi_gt_three]
  have hy : (sun_dir (Real.pi / 2, 0)).y = 1 := by
    simp [sun_dir, rotY, rotNegX, Real.sin_pi_div_two]
  rw [hy, Real.arcsin_one]
  have h1 : Real.pi / 2 / (Real.pi / 2) = 1 := div_self (by positivity)
  rw [h1]
  have hfm1 : fmodR 1 4 = 1 := by
    unfold fmodR rustTrunc
    rw [if_pos (by norm_num)]
    have hfl : ⌊(1 : ℝ) / 4⌋ = 0 :=
      Int.floor_eq_zero_iff.mpr ⟨by norm_num, by norm_num⟩
    rw [hfl]
    norm_num
  rw [hfm1, fold_eq_mid (by norm_num) le_rfl]
  unfold normalizedSunY sunAmountRaw
  have harg : (1 : ℝ) / (Real.pi / 2) < 1 := by
    rw [div_lt_one (by positivity)]
    linarith
  have hfm : fmodR (1 / (Real.pi / 2)) 4 = 1 / (Real.pi / 2) := by
    unfold fmodR rustTrunc
    rw [if_pos (by positivity)]
    have hfl : ⌊1 / (Real.pi / 2) / 4⌋ = 0 :=
      Int.floor_eq_zero_iff.mpr ⟨by positivity, by linarith⟩
    rw [hfl]
    norm_num
  have hargpos : (0 : ℝ) < 1 / (Real.pi / 2) := by positivity
  rw [hfm, fold_eq_mid (by linarith) (le_of_lt harg)]
  intro hcontra
  have heq1 : (1 : ℝ) / (Real.pi / 2) = 1 := by linarith
  rw [div_eq_one_iff_eq (by positivity)] at heq1
  linarith

/-- C4 as amended: the day/night factor multiplied into the final
normalized Z vector is `0.6 + 0.45 * sunAmount`, where `sunAmount` starts
as `(sun_dir.y / (π/2)) mod 4` — `sun_dir.y` being the y component of the
unit sun direction (the sine of the elevation angle), not the elevation
angle itself — and is then folded: values > 2 are set to 0 (`foldNight`),
then values > 1 are replaced by `2 - sunAmount` and values < -1 by
`-2 - sunAmount` (`foldMirror`). -/
theorem day_night_scale_amended (rgb rad : Fin 3 → ℕ → ℝ) (turb : ℝ)
    (alb : Fin 3 → ℝ) (sun_pos : ℝ × ℝ) :
    (recalc_sun rgb rad turb alb sun_pos).2 9 =
      (solvedParams rgb rad turb alb (sunThetaOf (sun_dir sun_pos).y) 9 /
        ((hosek_wilkie (Real.cos (sunThetaOf (sun_dir sun_pos).y)) 0 1
            (solvedParams rgb rad turb alb (sunThetaOf (sun_dir sun_pos).y))).mulE
          (solvedParams rgb rad turb alb (sunThetaOf (sun_dir sun_pos).y) 9)).dot
          lumaWeights) *
        (0.6 + 0.45 *
          foldMirror (foldNight (fmodR ((sun_dir sun_pos).y / (Real.pi / 2)) 4))) := by
  simp [recalc_sun, dayNightFold, sunAmountRaw]

theorem multiplier_continuousAt_of_fold {a : ℝ}
    (h : ContinuousAt dayNightFold a) : ContinuousAt dayNightMultiplier a := by
  unfold dayNightMultiplier
  exact ContinuousAt.add continuousAt_const (ContinuousAt.mul continuousAt_const h)

/-- C7: the day/night multiplier `0.6 + 0.45 * fold(sunAmount)`, as a
function of the pre-fold `sunAmount`, is continuous at the fold
boundaries 1, -1, 2 and -2. -/
theorem day_night_multiplier_continuous :
    ContinuousAt dayNightMultiplier 1 ∧ ContinuousAt dayNightMultiplier (-1) ∧
      ContinuousAt dayNightMultiplier 2 ∧ ContinuousAt dayNightMultiplier (-2) := by
  have fold_one : dayNightFold 1 = 1 := fold_eq_mid (by norm_num) le_rfl
  have fold_two : dayNightFold 2 = 0 := by
    rw [fold_eq_high (by norm_num) le_rfl]
    norm_num
  have hcmirror : Continuous (fun s : ℝ => 2 - s) :=
    continuous_const.sub continuous_id
  have hcmirror' : Continuous (fun s : ℝ => -2 - s) :=
    continuous_const.sub continuous_id
  refine ⟨?_, ?_, ?_, ?_⟩
  · -- at 1: left limit along the identity branch, right along `2 - s`
    apply multiplier_continuousAt_of_fold
    rw [continuousAt_iff_continuous_left_right]
    constructor
    · apply (continuous_id.continuousWithinAt).congr_of_eventuallyEq
      · filter_upwards [Ioc_mem_nhdsWithin_Iic
          (by norm_num : (1 : ℝ) ∈ Set.Ioc (-1 : ℝ) 1)] with s hs
        exact fold_eq_mid (le_of_lt hs.1) hs.2
      · exact fold_one
    · apply (hcmirror.continuousWithinAt).congr_of_eventuallyEq
      · filter_upwards [Ico_mem_nhdsWithin_Ici
          (by norm_num : (1 : ℝ) ∈ Set.Ico (1 : ℝ) 2)] with s hs
        rcases eq_or_lt_of_le hs.1 with heq | hlt
        · rw [← heq, fold_one]
          norm_num
        · exact fold_eq_high hlt (le_of_lt hs.2)
      · rw [fold_one]
        norm_num
  · -- at -1: left along `-2 - s`, right along the identity branch
    apply multiplier_continuousAt_of_fold
    rw [continuousAt_iff_continuous_left_right]
    constructor
    · apply (hcmirror'.continuousWithinAt).congr_of_eventuallyEq
      · filter_upwards [self_mem_nhdsWithin] with s hs
        exact fold_eq_low hs
      · exact fold_eq_low le_rfl
    · apply (continuous_id.continuousWithinAt).congr_of_eventuallyEq
      · filter_upwards [Ico_mem_nhdsWithin_Ici
          (by norm_num : (-1 : ℝ) ∈ Set.Ico (-1 : ℝ) 1)] with s hs
        exact fold_eq_mid hs.1 (le_of_lt hs.2)
      · exact fold_eq_mid (by norm_num) (by norm_num)
  · -- at 2: left along `2 - s`, right along the constant-0 night branch
    apply multiplier_continuousAt_of_fold
    rw [continuousAt_iff_continuous_left_right]
    constructor
    · apply (hcmirror.continuousWithinAt).congr_of_eventuallyEq
      · filter_upwards [Ioc_mem_nhdsWithin_Iic
          (by norm_num : (2 : ℝ) ∈ Set.Ioc (1 : ℝ) 2)] with s hs
        exact fold_eq_high hs.1 hs.2
      · rw [fold_two]
        norm_num
    · have hc0 : Continuous (fun _ : ℝ => (0 : ℝ)) := continuous_const
      apply (hc0.continuousWithinAt).congr_of_eventuallyEq
      · filter_upwards [self_mem_nhdsWithin] with s hs
        rcases eq_or_lt_of_le (hs : (2 : ℝ) ≤ s) with heq | hlt
        · rw [← heq, fold_two]
        · rw [fold_eq_night hlt]
      · exact fold_two
  · -- at -2: the fold agrees with `-2 - s` on a full neighbourhood
    apply multiplier_continuousAt_of_fold
    apply ContinuousAt.congr (hcmirror'.continuousAt)
    filter_upwards [Iio_mem_nhds (by norm_num : (-2 : ℝ) < -1)] with s hs
    exact (fold_eq_low (le_of_lt hs)).symm

/-- C8: for every unit sun direction (y component in `[-1, 1]`), the value
`sun_amount = (sun_dir.y / (π/2)) % 4` never exceeds 2, so the
`if sun_amount > 2.0` branch that forces it to 0 is the identity there
(the branch is unreachable). -/
theorem sun_amount_bounded (y : ℝ) (h1 : -1 ≤ y) (h2 : y ≤ 1) :
    sunAmountRaw y ≤ 2 ∧ foldNight (sunAmountRaw y) = sunAmountRaw y := by
  have hpi : (2 : ℝ) < Real.pi := by linarith [Real.pi_gt_three]
  have hpos : (0 : ℝ) < Real.pi / 2 := by linarith
  have habs : |y / (Real.pi / 2)| < 1 := by
    rw [abs_div, abs_of_pos hpos, div_lt_one hpos]
    have : |y| ≤ 1 := abs_le.mpr ⟨h1, h2⟩
    linarith
  have hlo := (abs_lt.mp habs).1
  have hhi := (abs_lt.mp habs).2
  have htr : rustTrunc (y / (Real.pi / 2) / 4) = 0 := by
    unfold rustTrunc
    split_ifs with hnn
    · have hfl : ⌊y / (Real.pi / 2) / 4⌋ = 0 :=
        Int.floor_eq_zero_iff.mpr ⟨hnn, by linarith⟩
      rw [hfl]
      norm_num
    · have hcl : ⌈y / (Real.pi / 2) / 4⌉ = 0 :=
        Int.ceil_eq_zero_iff.mpr ⟨by linarith, by linarith⟩
      rw [hcl]
      norm_num
  have hval : sunAmountRaw y = y / (Real.pi / 2) := by
    unfold sunAmountRaw fmodR
    rw [htr]
    ring
  constructor
  · rw [hval]
    linarith
  · rw [hval]
    unfold foldNight
    rw [if_neg (by linarith)]

/-- Witness for C8 at `y = 0`. -/
theorem sun_amount_bounded_witness :
    (-1 : ℝ) ≤ 0 ∧ (0 : ℝ) ≤ 1 ∧
      (sunAmountRaw 0 ≤ 2 ∧ foldNight (sunAmountRaw 0) = sunAmountRaw 0) :=
  ⟨by norm_num, by norm_num, sun_amount_bounded 0 (by norm_num) (by norm_num)⟩

theorem turbidity0_le_ten (t : ℝ) : turbidity0 t ≤ 10 := by
  unfold turbidity0 clamp
  split_ifs <;> omega

theorem turbidity1_le_ten (t : ℝ) : turbidity1 t ≤ 10 := by
  unfold turbidity1 minP
  split_ifs with h <;> omega

/-- C10: all dataset indices accessed by `evaluate` (through
`evaluate_spline`) with stride 9, shifted by any `recalc_sun` slice offset
`s ≤ 8`, are strictly below `2*10*6*9 = 1080`, the per-channel RGB table
length; with stride 1 and offset 0 all accessed indices are strictly
below `2*10*6*1 = 120`, the radiance table length. -/
theorem dataset_index_bounds (t : ℝ) (s j j' : ℕ) (hs : s ≤ 8)
    (hj : j ∈ evaluateIndices 9 t) (hj' : j' ∈ evaluateIndices 1 t) :
    j + s < 1080 ∧ j' < 120 := by
  have h0 := turbidity0_le_ten t
  have h1 := turbidity1_le_ten t
  simp only [evaluateIndices, splineIndices, List.mem_append, List.mem_cons,
    List.not_mem_nil, or_false] at hj hj'
  omega

/-- Witness for C10 at turbidity 4, offset 8, the first index of each
spline evaluation. -/
theorem dataset_index_bounds_witness :
    8 ≤ 8 ∧ 162 ∈ evaluateIndices 9 4 ∧ 18 ∈ evaluateIndices 1 4 ∧
      (162 + 8 < 1080 ∧ 18 < 120) := by
  have ht0 : turbidity0 (4 : ℝ) = 4 := by
    unfold turbidity0 clamp
    rw [show ⌊(4 : ℝ)⌋₊ = 4 by norm_num]
    norm_num
  have hm : 162 ∈ evaluateIndices 9 4 := by
    simp [evaluateIndices, splineIndices, ht0]
  have hm' : 18 ∈ evaluateIndices 1 4 := by
    simp [evaluateIndices, splineIndices, ht0]
  exact ⟨le_rfl, hm, hm', dataset_index_bounds 4 8 162 18 le_rfl hm hm'⟩

end HW
